import Mathlib

/-!
Shallow embedding of the music-backend controller
(`src/controllers/musicController.js`) of the Elevate music backend.

Strings are Lean `String`s (the endpoints under study only manipulate
ASCII payloads, so JS UTF-16 lengths coincide with Lean codepoint
lengths on all inputs of interest).  The MongoDB collection is a
`List MusicRec`, the uploads directory a `List String` of filenames,
and every handler is a pure function from a request and a state to a
response, a new state and a log of filesystem operations.
-/

/-- Character class of the sanitizer's allow-list regex
`[a-zA-Z0-9._-]` (musicController.js, `sanitizeFilename`). -/
def isSafeChar (c : Char) : Bool :=
  ('a' ≤ c && c ≤ 'z') || ('A' ≤ c && c ≤ 'Z') || ('0' ≤ c && c ≤ '9') ||
    c = '.' || c = '_' || c = '-'

/-- `/^[a-zA-Z0-9._-]+$/.test s`: nonempty and every character in the
allow-list. -/
def isSafeName (s : String) : Bool :=
  !(s = "") && s.data.all isSafeChar

/-- Node's POSIX `path.basename`: ignore trailing `'/'` separators,
then keep the final segment after the last remaining `'/'`. -/
def basename (s : String) : String :=
  let rev := s.data.reverse.dropWhile (fun c => c = '/')
  String.mk (rev.takeWhile (fun c => !(c = '/'))).reverse

/-- `sanitizeFilename` (musicController.js:23-34): reject empty input,
take `path.basename`, and accept the result only when it matches
`/^[a-zA-Z0-9._-]+$/`; `none` is the JS `null` sentinel. -/
def sanitizeFilename (filename : String) : Option String :=
  if filename = "" then none
  else
    let sanitized := basename filename
    if isSafeName sanitized then some sanitized else none

/-- JS `needle` occurs in `hay` as a contiguous substring
(`String.prototype.includes`, and the literal regex built via
`escapeRegExp` in `updateDatabaseUrls`). -/
def listHasInfix (needle : List Char) : List Char → Bool
  | [] => needle.isEmpty
  | c :: rest => needle.isPrefixOf (c :: rest) || listHasInfix needle rest

/-- `hay.includes pat` on strings. -/
def hasSubstr (hay pat : String) : Bool :=
  listHasInfix pat.data hay.data

/-- JS `String.prototype.replace` with a plain-string pattern: replace
the first occurrence only; if the pattern does not occur, return the
string unchanged. -/
def replaceFirstL (s pat repl : List Char) : List Char :=
  if pat.isPrefixOf s then repl ++ s.drop pat.length
  else
    match s with
    | [] => []
    | c :: rest => c :: replaceFirstL rest pat repl

/-- String version of `replaceFirstL`. -/
def replaceFirst (s pat repl : String) : String :=
  String.mk (replaceFirstL s.data pat.data repl.data)

/-- JS whitespace for `String.prototype.trim`. -/
def jsWhitespace (c : Char) : Bool :=
  c = ' ' || c = '\t' || c = '\n' || c = '\r' || c = '\x0b' || c = '\x0c'

/-- `String.prototype.trim`: strip leading and trailing whitespace. -/
def jsTrim (s : String) : String :=
  let front := s.data.dropWhile jsWhitespace
  String.mk (front.reverse.dropWhile jsWhitespace).reverse

/-- Modelled from the spec: the external `sanitize-html` dependency
(not part of this repository) configured with `allowedTags: []` and
`allowedAttributes: \x7b\x7d` reduces its input to plain text; modelled
as removal of `<...>` tag spans, leaving the text content.  On inputs
that contain no `'<'` it is the identity. -/
def stripHtmlAux : List Char → Bool → List Char
  | [], _ => []
  | c :: rest, inTag =>
    if inTag then
      if c = '>' then stripHtmlAux rest false else stripHtmlAux rest true
    else
      if c = '<' then stripHtmlAux rest true else c :: stripHtmlAux rest false

/-- String version of `stripHtmlAux`, starting outside a tag. -/
def stripHtml (s : String) : String :=
  String.mk (stripHtmlAux s.data false)

/-- `sanitizeText` (musicController.js:16-20): trim, and return `""`
for blank input, otherwise strip HTML down to plain text. -/
def sanitizeText (input : String) : String :=
  let trimmed := jsTrim input
  if trimmed = "" then "" else stripHtml trimmed

/-- Hex digit, for ObjectId validity. -/
def isHexChar (c : Char) : Bool :=
  c.isDigit || ('a' ≤ c && c ≤ 'f') || ('A' ≤ c && c ≤ 'F')

/-- `mongoose.Types.ObjectId.isValid` on strings: a 24-character hex
string or a 12-character (12-byte) string. -/
def isValidObjectId (s : String) : Bool :=
  (s.length = 24 && s.data.all isHexChar) || s.length = 12

example : sanitizeFilename "../a.mp3" = some "a.mp3" := by decide
example : sanitizeFilename "a/.." = some ".." := by decide
example : sanitizeFilename "x y" = none := by decide
example : sanitizeFilename "" = none := by decide
example : basename "a/b/" = "b" := by decide
example : hasSubstr "https://old.example.com" "old.example.com" = true := by decide
example : hasSubstr "https://old.example.com/u" "http://old.example.com" = false := by decide
example : replaceFirst "http://h/a" "http://h" "x://n" = "x://n/a" := by decide
example : sanitizeText "  <b>hi</b>  " = "hi" := by decide
example : isValidObjectId "0123456789abcdef01234567" = true := by decide
example : isValidObjectId "zz" = false := by decide

/-- An uploaded file as produced by the multipart middleware: only its
generated on-disk filename is relevant to the controller. -/
structure UploadedFile where
  filename : String
deriving DecidableEq

/-- A persisted music record (the fields of the `Music` model that the
controller reads or writes; the owning-user reference is omitted as no
handler under study depends on it).  `fileUrl`/`thumbnailUrl` are
`none` when absent.  `duration` is stored as a number, dates as their
source strings. -/
structure MusicRec where
  id : String
  title : String := ""
  artist : String := ""
  category : String := ""
  categoryType : Option String := none
  duration : Int := 0
  releaseDate : String := ""
  description : String := ""
  fileUrl : Option String := none
  thumbnailUrl : Option String := none
deriving DecidableEq

/-- Server state: the `Music` collection and the set of filenames
present in the uploads directory. -/
structure St where
  db : List MusicRec
  fs : List String
deriving DecidableEq

/-- A filesystem operation performed by a handler: an `fs.existsSync`
check (with its result) or an `fs.unlinkSync` deletion.  Paths are
recorded by their filename within the uploads directory (every checked
path is `path.join(__dirname, '../uploads', name)` for a sanitizer
output `name`, which contains no separators). -/
inductive FsOp where
  | existsCheck (name : String) (found : Bool)
  | unlink (name : String)
deriving DecidableEq

/-- A JSON response: HTTP status plus the optional body fields the
handlers under study produce. -/
structure Resp where
  status : Nat
  message : Option String := none
  missing : Option (List String) := none
  success : Option Bool := none
  updatedCount : Option Nat := none
  totalFound : Option Nat := none
  record : Option MusicRec := none
deriving DecidableEq

/-- Response carrying only a status and a message. -/
def mkMsg (s : Nat) (msg : String) : Resp :=
  { status := s, message := some msg }

/-- JS truthiness of an optional string field: `undefined` and `""`
are falsy. -/
def strTruthy (o : Option String) : Bool :=
  match o with
  | none => false
  | some s => !(s = "")

/-- JS truthiness of an optional numeric field: `undefined` and `0`
are falsy. -/
def intTruthy (o : Option Int) : Bool :=
  match o with
  | none => false
  | some n => !(n = 0)

/-- `music.f = req.body.f || music.f` for string fields. -/
def orKeepS (new : Option String) (old : String) : String :=
  if strTruthy new then new.getD old else old

/-- `music.duration = req.body.duration || music.duration`. -/
def orKeepI (new : Option Int) (old : Int) : Int :=
  if intTruthy new then new.getD old else old

/-- Whether a sanitizer-accepted name is one of the special path
segments `"."` or `".."` (both match the allow-list, since dots are
permitted).  For these, `path.join(__dirname, '../uploads', name)`
resolves to the uploads directory itself or to its parent — an existing
DIRECTORY rather than an uploaded file — so `fs.existsSync` is true and
`fs.unlinkSync` throws instead of deleting. -/
def isDotSegment (name : String) : Bool :=
  name = "." || name = ".."

/-- Outcome of one cleanup block: the uploads directory afterwards, the
log of performed filesystem operations, and whether `fs.unlinkSync`
threw.  A throwing unlink attempt is represented by `threw` (no
deletion happened), not by an op in the log. -/
structure FsOutcome where
  fs : List String
  ops : List FsOp
  threw : Bool
deriving DecidableEq

/-- The file-cleanup pattern shared by `deleteMusic` and `updateMusic`:
given a stored URL, sanitize its basename; on a safe name, check
existence of the joined path and unlink when present; an unsafe or
absent name is silently skipped.  For the dot segments `"."` and `".."`
the joined path is an existing directory, so the existence check
succeeds and the unlink throws.  The uploads directory is modelled as a
list of ordinary (regular-file) entry names. -/
def cleanupFile (url : Option String) (fs : List String) : FsOutcome :=
  match url with
  | none => ⟨fs, [], false⟩
  | some u =>
    match sanitizeFilename (basename u) with
    | none => ⟨fs, [], false⟩
    | some name =>
      if isDotSegment name then
        ⟨fs, [FsOp.existsCheck name true], true⟩
      else if name ∈ fs then
        ⟨fs.erase name, [FsOp.existsCheck name true, FsOp.unlink name], false⟩
      else
        ⟨fs, [FsOp.existsCheck name false], false⟩

/-- Whether the cleanup of a stored URL throws: exactly when the URL is
present and its basename sanitizes to a dot segment. -/
def cleanupThrows (url : Option String) : Bool :=
  match url with
  | none => false
  | some u =>
    match sanitizeFilename (basename u) with
    | none => false
    | some name => isDotSegment name

/-- `GET /api/music/category/:categoryId` (`getMusicByCategory`):
400 on a malformed id, 404 when no record's category matches, 200
otherwise (the URL-rewritten listing body is not modelled; only the
status and message are).  Read-only: no state returned. -/
def getMusicByCategory (categoryId : String) (db : List MusicRec) : Resp :=
  if !(isValidObjectId categoryId) then mkMsg 400 "Invalid category ID"
  else
    let musicList := db.filter (fun m => m.category = categoryId)
    if musicList.length = 0 then mkMsg 404 "No music found for this category"
    else { status := 200 }

/-- The body of `POST /api/music/create`: `none` models an absent
(`undefined`) field; numeric body fields are integers. -/
structure CreateReq where
  title : Option String := none
  artist : Option String := none
  category : Option String := none
  categoryType : Option String := none
  duration : Option Int := none
  releaseDate : Option String := none
  description : Option String := none
  audioFile : Option UploadedFile := none
  thumbnailFile : Option UploadedFile := none
deriving DecidableEq

/-- The `missingFields` accumulation of `createMusic`
(musicController.js:152-166), in source order; a JS-falsy field is
pushed as missing. -/
def missingFields (r : CreateReq) : List String :=
  (if strTruthy r.title then [] else ["title"]) ++
  (if strTruthy r.artist then [] else ["artist"]) ++
  (if strTruthy r.category then [] else ["category"]) ++
  (if strTruthy r.categoryType then [] else ["categoryType"]) ++
  (if r.audioFile.isSome then [] else ["file"]) ++
  (if intTruthy r.duration then [] else ["duration"]) ++
  (if strTruthy r.releaseDate then [] else ["releaseDate"])

/-- `createMusic` (musicController.js:~145-210): 400 with the missing
list when any required field is falsy; then the description is
sanitized and length-guarded (400 over 1000 characters); then the
record is built — an ObjectId conversion of a malformed category or
categoryType throws and is answered 500 by the catch block — and
appended to the collection with the database-assigned id `newId`. -/
def createMusic (newId : String) (r : CreateReq) (st : St) : Resp × St :=
  let missing := missingFields r
  if !(missing.isEmpty) then
    ({ status := 400, message := some "Missing required fields",
       missing := some missing }, st)
  else
    let description := sanitizeText (r.description.getD "")
    if description.length > 1000 then
      (mkMsg 400 "Description must be 1000 characters or fewer", st)
    else if !(isValidObjectId (r.category.getD "") &&
              isValidObjectId (r.categoryType.getD "")) then
      (mkMsg 500 "Server Error", st)
    else
      let rec0 : MusicRec :=
        { id := newId
          title := r.title.getD ""
          artist := r.artist.getD ""
          category := r.category.getD ""
          categoryType := r.categoryType
          duration := r.duration.getD 0
          releaseDate := r.releaseDate.getD ""
          description := description
          fileUrl := (r.audioFile.map (fun f => "/uploads/" ++ f.filename))
          thumbnailUrl := (r.thumbnailFile.map (fun f => "/uploads/" ++ f.filename)) }
      ({ status := 201, record := some rec0 }, { st with db := st.db ++ [rec0] })

/-- The body of `PUT /api/music/:id`: `none` models an absent
(`undefined`) field, `some ""` an explicitly supplied empty string. -/
structure UpdateBody where
  fileUrl : Option String := none
  thumbnailUrl : Option String := none
  title : Option String := none
  artist : Option String := none
  category : Option String := none
  categoryType : Option String := none
  duration : Option Int := none
  releaseDate : Option String := none
  description : Option String := none
deriving DecidableEq

/-- A `PUT /api/music/:id` request: path id, JSON/multipart body, and
the optional uploaded files. -/
structure UpdateReq where
  id : String
  body : UpdateBody := {}
  audioFile : Option UploadedFile := none
  thumbnailFile : Option UploadedFile := none
deriving DecidableEq

/-- The direct URL overwrites of `updateMusic`
(musicController.js:219-229): a truthy body `fileUrl`/`thumbnailUrl`
replaces the stored field, with no filesystem interaction. -/
def applyBodyUrls (b : UpdateBody) (m : MusicRec) : MusicRec :=
  let m1 := if strTruthy b.fileUrl then { m with fileUrl := b.fileUrl } else m
  if strTruthy b.thumbnailUrl then { m1 with thumbnailUrl := b.thumbnailUrl } else m1

/-- The scalar field merges of `updateMusic`
(musicController.js:232-248), applied once both ObjectId validations
have passed: falsy body values keep the stored value; a truthy
category/categoryType is assigned. -/
def applyScalarFields (b : UpdateBody) (m : MusicRec) : MusicRec :=
  { m with
    title := orKeepS b.title m.title
    artist := orKeepS b.artist m.artist
    category := if strTruthy b.category then b.category.getD "" else m.category
    categoryType := if strTruthy b.categoryType then b.categoryType else m.categoryType
    duration := orKeepI b.duration m.duration
    releaseDate := orKeepS b.releaseDate m.releaseDate }

/-- The description guard of `updateMusic` (musicController.js:251-259):
only a supplied (`!== undefined`) description is sanitized and
length-checked; `none` signals the 400 "too long" early return. -/
def applyDescription (b : UpdateBody) (m : MusicRec) : Option MusicRec :=
  match b.description with
  | none => some m
  | some d =>
    let desc := sanitizeText d
    if desc.length > 1000 then none else some { m with description := desc }

/-- The audio-upload block of `updateMusic` (musicController.js:262-272):
when a file was uploaded, clean up the file referenced by the record's
CURRENT `fileUrl` (which may already be the body-supplied one) and point
`fileUrl` at the new upload.  A throwing unlink aborts the block before
the assignment, leaving the record as it was. -/
def processAudio (req : UpdateReq) (m : MusicRec) (fs : List String) :
    MusicRec × FsOutcome :=
  match req.audioFile with
  | none => (m, ⟨fs, [], false⟩)
  | some f =>
    let cleaned := cleanupFile m.fileUrl fs
    if cleaned.threw then (m, cleaned)
    else ({ m with fileUrl := some ("/uploads/" ++ f.filename) }, cleaned)

/-- The thumbnail-upload block of `updateMusic`
(musicController.js:275-285), symmetric to `processAudio`. -/
def processThumb (req : UpdateReq) (m : MusicRec) (fs : List String) :
    MusicRec × FsOutcome :=
  match req.thumbnailFile with
  | none => (m, ⟨fs, [], false⟩)
  | some f =>
    let cleaned := cleanupFile m.thumbnailUrl fs
    if cleaned.threw then (m, cleaned)
    else ({ m with thumbnailUrl := some ("/uploads/" ++ f.filename) }, cleaned)

/-- `music.save()`: persist the mutated record over the stored one with
the same id. -/
def saveRec (db : List MusicRec) (m : MusicRec) : List MusicRec :=
  db.map (fun r => if r.id = m.id then m else r)

/-- `updateMusic` (musicController.js:~213-300): validate the id, find
the record (404 when absent), overwrite URLs from the body, validate
body ObjectIds (400 on malformed), merge scalar fields, guard the
description (400 when over 1000 characters after sanitization), process
the uploaded files, and save.  Every early return leaves the state
untouched (mutations before `save()` are never persisted); a throwing
unlink in a file block is caught by the handler's try/catch, which
answers 500 "Server Error" without saving (file deletions already
performed persist). -/
def updateMusic (req : UpdateReq) (st : St) : Resp × St × List FsOp :=
  if !(isValidObjectId req.id) then (mkMsg 400 "Invalid music ID", st, [])
  else
    match st.db.find? (fun m => m.id = req.id) with
    | none => (mkMsg 404 "Music not found", st, [])
    | some music =>
      if strTruthy req.body.category && !(isValidObjectId (req.body.category.getD "")) then
        (mkMsg 400 "Invalid category ID", st, [])
      else if strTruthy req.body.categoryType &&
          !(isValidObjectId (req.body.categoryType.getD "")) then
        (mkMsg 400 "Invalid categoryType ID", st, [])
      else
        let m3 := applyScalarFields req.body (applyBodyUrls req.body music)
        match applyDescription req.body m3 with
        | none => (mkMsg 400 "Description must be 1000 characters or fewer", st, [])
        | some m4 =>
          let a := processAudio req m4 st.fs
          if a.2.threw then
            (mkMsg 500 "Server Error", { st with fs := a.2.fs }, a.2.ops)
          else
            let t := processThumb req a.1 a.2.fs
            if t.2.threw then
              (mkMsg 500 "Server Error", { st with fs := t.2.fs },
               a.2.ops ++ t.2.ops)
            else
              ({ status := 200, record := some t.1 },
               { db := saveRec st.db t.1, fs := t.2.fs },
               a.2.ops ++ t.2.ops)

/-- `deleteMusic` (musicController.js:305-335): validate the id, find
the record (404 when absent), best-effort cleanup of both referenced
files (each sanitized, existence-checked, unlinked when present), then
remove the record and answer success.  The handler has no try/catch: a
throwing unlink propagates through `asyncHandler` to the error
middleware (a collaborator outside the surveyed files), which answers
500 — the record is never deleted on that path; the response body of
that middleware is not modelled. -/
def deleteMusic (id : String) (st : St) : Resp × St × List FsOp :=
  if !(isValidObjectId id) then (mkMsg 400 "Invalid music ID", st, [])
  else
    match st.db.find? (fun m => m.id = id) with
    | none => (mkMsg 404 "Music not found", st, [])
    | some music =>
      let c1 := cleanupFile music.fileUrl st.fs
      if c1.threw then
        ({ status := 500 }, { st with fs := c1.fs }, c1.ops)
      else
        let c2 := cleanupFile music.thumbnailUrl c1.fs
        if c2.threw then
          ({ status := 500 }, { st with fs := c2.fs }, c1.ops ++ c2.ops)
        else
          (mkMsg 200 "Music deleted successfully",
           { db := st.db.eraseP (fun m => m.id = id), fs := c2.fs },
           c1.ops ++ c2.ops)

/-- Scan for the `"://"` scheme separator and return the remainder. -/
def afterSchemeSep : List Char → Option (List Char)
  | [] => none
  | ':' :: '/' :: '/' :: rest => some rest
  | _ :: rest => afterSchemeSep rest

/-- `new URL(s).hostname` for the `scheme://host[:port][/path]` URLs
this controller is configured with; `none` models the constructor
throwing on input without a scheme separator or host. -/
def parseHostname (s : String) : Option String :=
  match afterSchemeSep s.data with
  | none => none
  | some rest =>
    let host := rest.takeWhile
      (fun c => !(c = '/') && !(c = ':') && !(c = '?') && !(c = '#'))
    if host.isEmpty then none else some (String.mk host)

/-- Environment configuration read by `updateDatabaseUrls`. -/
structure Env where
  OLD_BASE_URL : Option String := none
  NEW_BASE_URL : Option String := none
  PRODUCTION_URL : Option String := none
deriving DecidableEq

/-- `process.env.NEW_BASE_URL || process.env.PRODUCTION_URL`. -/
def resolvedNewBase (env : Env) : Option String :=
  if strTruthy env.NEW_BASE_URL then env.NEW_BASE_URL else env.PRODUCTION_URL

/-- A record is scanned by the migration query when its `fileUrl` or
`thumbnailUrl` contains the old hostname (the `$regex` of an escaped
hostname is a literal substring match; a `none` field never matches). -/
def matchesOldHost (host : String) (m : MusicRec) : Bool :=
  (match m.fileUrl with
   | none => false
   | some u => hasSubstr u host) ||
  (match m.thumbnailUrl with
   | none => false
   | some u => hasSubstr u host)

/-- The per-record body of the migration loop
(musicController.js:425-456): each URL field containing the old
hostname is rewritten by substituting the first occurrence of
`OLD_BASE_URL` with `NEW_BASE_URL`; the Bool is `needsUpdate`. -/
def migrateRecord (oldBase newBase host : String) (m : MusicRec) :
    MusicRec × Bool :=
  let fu := match m.fileUrl with
    | none => (none, false)
    | some u =>
      if hasSubstr u host then (some (replaceFirst u oldBase newBase), true)
      else (some u, false)
  let tu := match m.thumbnailUrl with
    | none => (none, false)
    | some u =>
      if hasSubstr u host then (some (replaceFirst u oldBase newBase), true)
      else (some u, false)
  ({ m with fileUrl := fu.1, thumbnailUrl := tu.1 }, fu.2 || tu.2)

/-- `POST /api/music/update-urls` (`updateDatabaseUrls`,
musicController.js:377-465): read the base URLs from the environment
(400 when unset or when `OLD_BASE_URL` does not parse), scan for records
whose URL fields contain the old hostname, answer early with
`updatedCount 0` when none match, otherwise rewrite each matched record
(persisting via `findByIdAndUpdate` when `needsUpdate`) and report
`updatedCount` and `totalFound`. -/
def updateDatabaseUrls (env : Env) (db : List MusicRec) :
    Resp × List MusicRec :=
  let oldBase := env.OLD_BASE_URL
  let newBase := resolvedNewBase env
  if !(strTruthy oldBase && strTruthy newBase) then
    ({ status := 400, success := some false,
       message := some "Missing environment variables. Please set OLD_BASE_URL and NEW_BASE_URL (or PRODUCTION_URL) in .env file" }, db)
  else
    match parseHostname (oldBase.getD "") with
    | none =>
      ({ status := 400, success := some false,
         message := some "Invalid OLD_BASE_URL format in environment variables" }, db)
    | some host =>
      let musicRecords := db.filter (matchesOldHost host)
      if musicRecords.length = 0 then
        ({ status := 200, success := some true,
           message := some "No records found with old server URLs. Database is already up to date!",
           updatedCount := some 0 }, db)
      else
        let results := musicRecords.map
          (migrateRecord (oldBase.getD "") (newBase.getD "") host)
        let db' := results.foldl
          (fun acc p => if p.2 then saveRec acc p.1 else acc) db
        let updatedCount := (results.filter (fun p => p.2)).length
        ({ status := 200, success := some true,
           updatedCount := some updatedCount,
           totalFound := some musicRecords.length }, db')

example :
    parseHostname "http://old.example.com" = some "old.example.com" := by decide

/-- Canonical order of the required create fields, as pushed by
`createMusic`. -/
def requiredFieldNames : List String :=
  ["title", "artist", "category", "categoryType", "file", "duration", "releaseDate"]

/-- Whether a required field is missing (JS-falsy) in a create
request. -/
def fieldAbsent (r : CreateReq) : String → Bool
  | "title" => !(strTruthy r.title)
  | "artist" => !(strTruthy r.artist)
  | "category" => !(strTruthy r.category)
  | "categoryType" => !(strTruthy r.categoryType)
  | "file" => !(r.audioFile.isSome)
  | "duration" => !(intTruthy r.duration)
  | "releaseDate" => !(strTruthy r.releaseDate)
  | _ => false

/-- Well-formed 24-hex ObjectIds used in concrete scenarios. -/
def oid1 : String := "0123456789abcdef01234567"

/-- A second, distinct well-formed ObjectId. -/
def oid2 : String := "abcdef0123456789abcdef01"

/-- A plain description of `n` characters. -/
def descChars (n : Nat) : String := String.mk (List.replicate n 'a')

/-- Create request missing exactly `title` and `duration`. -/
def reqCreateMissing : CreateReq :=
  { artist := some "A", category := some oid1, categoryType := some oid2,
    releaseDate := some "2024-01-01",
    audioFile := some { filename := "f.mp3" } }

/-- Fully populated create request with a description of `n`
characters. -/
def reqCreateDesc (n : Nat) : CreateReq :=
  { title := some "T", artist := some "A", category := some oid1,
    categoryType := some oid2, duration := some 180,
    releaseDate := some "2024-01-01", description := some (descChars n),
    audioFile := some { filename := "f.mp3" } }

/-- The empty server state. -/
def emptySt : St := { db := [], fs := [] }

/-- A record whose referenced files are absent from the uploads
directory. -/
def recDangling : MusicRec :=
  { id := oid1, fileUrl := some "/uploads/gone.mp3",
    thumbnailUrl := some "/uploads/thumb.jpg" }

/-- State holding only `recDangling`, with an empty uploads
directory. -/
def stDangling : St := { db := [recDangling], fs := [] }

/-- A record referencing `/uploads/old.mp3`. -/
def recOld : MusicRec := { id := oid1, fileUrl := some "/uploads/old.mp3" }

/-- Metadata-only URL update request: raw body `fileUrl` and
`thumbnailUrl`, no uploaded files. -/
def reqUrlOnly : UpdateReq :=
  { id := oid1,
    body := { fileUrl := some "http://cdn.example.com/x.mp3",
              thumbnailUrl := some "http://cdn.example.com/t.jpg" } }

/-- State for the metadata-only update scenario. -/
def stUrlOnly : St := { db := [recOld], fs := ["old.mp3"] }

/-- Update request supplying both a raw body `fileUrl` and an uploaded
audio file. -/
def reqBodyAndUpload : UpdateReq :=
  { id := oid1, body := { fileUrl := some "/uploads/body1.mp3" },
    audioFile := some { filename := "new.mp3" } }

/-- State for the body-URL-plus-upload scenario: both the previously
referenced file and the body-named file exist. -/
def stBodyAndUpload : St := { db := [recOld], fs := ["old.mp3", "body1.mp3"] }

/-- A record whose stored `fileUrl` has basename `".."`: the sanitizer
accepts `".."`, and `path.join` resolves it to the parent of the
uploads directory. -/
def recDotDot : MusicRec := { id := oid1, fileUrl := some "/uploads/.." }

/-- State holding only `recDotDot`. -/
def stDotDot : St := { db := [recDotDot], fs := [] }

/-- Update request supplying a raw body `fileUrl` with basename `".."`
together with an uploaded audio file. -/
def reqDotUpload : UpdateReq :=
  { id := oid1, body := { fileUrl := some "/uploads/.." },
    audioFile := some { filename := "new.mp3" } }

/-- State for the dot-segment upload scenario. -/
def stDotUpload : St := { db := [recOld], fs := ["old.mp3"] }

/-- A record with nontrivial scalar fields. -/
def recScalars : MusicRec :=
  { id := oid1, title := "OldTitle", artist := "OldArtist", duration := 100,
    releaseDate := "2020-01-01" }

/-- Update request supplying falsy values for title, artist, duration
and releaseDate. -/
def reqFalsy : UpdateReq :=
  { id := oid1,
    body := { title := some "", artist := some "", duration := some 0,
              releaseDate := some "" } }

/-- State holding only `recScalars`. -/
def stScalars : St := { db := [recScalars], fs := [] }

/-- Update request supplying a description of `n` characters. -/
def reqUpdateDesc (n : Nat) : UpdateReq :=
  { id := oid1, body := { description := some (descChars n) } }

/-- Migration environment of the specification's scenario. -/
def envMig : Env :=
  { OLD_BASE_URL := some "http://old.example.com",
    NEW_BASE_URL := some "http://new.example.com" }

/-- Record carrying an old-host `fileUrl`. -/
def recMig : MusicRec :=
  { id := oid1, fileUrl := some "http://old.example.com/uploads/a.mp3" }

/-- Record whose `fileUrl` contains the old hostname under `https`, so
it is scanned but the `http://` base-URL substitution cannot change
it. -/
def recHttps : MusicRec :=
  { id := oid1, fileUrl := some "https://old.example.com/uploads/a.mp3" }

/-- Record with no old-host URL at all. -/
def recNoMatch : MusicRec := { id := oid2, fileUrl := some "/uploads/b.mp3" }

/-- Every name remaining after a cleanup was already present. -/
theorem cleanupFile_fs_subset (url : Option String) (fs : List String) :
    ∀ x, x ∈ (cleanupFile url fs).fs → x ∈ fs := by
  intro x hx
  unfold cleanupFile at hx
  cases url with
  | none => exact hx
  | some u =>
    dsimp only at hx
    cases h : sanitizeFilename (basename u) with
    | none => rw [h] at hx; exact hx
    | some name =>
      rw [h] at hx
      by_cases hdot : isDotSegment name = true
      · simp only [hdot, if_true] at hx
        exact hx
      · simp only [hdot, if_false, Bool.false_eq_true] at hx
        by_cases hm : name ∈ fs
        · simp only [hm, if_true] at hx
          exact List.erase_subset _ _ hx
        · simp only [hm, if_false] at hx
          exact hx

/-- Every unlinked name was present before the cleanup (a dot segment
never produces an unlink op: its attempt throws). -/
theorem cleanupFile_unlink_mem (url : Option String) (fs : List String) :
    ∀ n, FsOp.unlink n ∈ (cleanupFile url fs).ops → n ∈ fs := by
  intro n hn
  unfold cleanupFile at hn
  cases url with
  | none => simp at hn
  | some u =>
    dsimp only at hn
    cases h : sanitizeFilename (basename u) with
    | none => rw [h] at hn; simp at hn
    | some name =>
      rw [h] at hn
      by_cases hdot : isDotSegment name = true
      · simp only [hdot, if_true, List.mem_singleton] at hn
        exact absurd hn (by simp)
      · simp only [hdot, if_false, Bool.false_eq_true] at hn
        by_cases hm : name ∈ fs
        · simp only [hm, if_true, List.mem_cons, List.mem_singleton,
            List.not_mem_nil, or_false] at hn
          rcases hn with h1 | h1
          · exact absurd h1 (by simp)
          · simp only [FsOp.unlink.injEq] at h1
            rw [h1]
            exact hm
        · simp only [hm, if_false, List.mem_singleton, List.mem_cons,
            List.not_mem_nil, or_false] at hn
          exact absurd hn (by simp)

/-- The cleanup throws exactly when `cleanupThrows` says so. -/
theorem cleanupFile_threw (url : Option String) (fs : List String) :
    (cleanupFile url fs).threw = cleanupThrows url := by
  unfold cleanupFile cleanupThrows
  cases url with
  | none => rfl
  | some u =>
    dsimp only
    cases h : sanitizeFilename (basename u) with
    | none => rfl
    | some name =>
      by_cases hdot : isDotSegment name = true
      · simp only [hdot, if_true]
      · simp only [hdot, if_false, Bool.false_eq_true]
        by_cases hm : name ∈ fs
        · simp only [hm, if_true]
        · simp only [hm, if_false]

/-- Claim C1 (counterexample): the input `"../a.mp3"` contains `"../"`,
yet the sanitizer returns the usable name `"a.mp3"` instead of the null
sentinel, because `path.basename` strips the directory part before the
allow-list test. -/
theorem C1_counterexample :
    hasSubstr "../a.mp3" "../" = true ∧
    sanitizeFilename "../a.mp3" = some "a.mp3" ∧
    sanitizeFilename "../a.mp3" ≠ none := by
  refine ⟨by decide, by decide, by decide⟩

/-- Claim C1 (amended): the sanitizer returns the null sentinel exactly
when the input is empty or its final path segment fails the
`[a-zA-Z0-9._-]+` allow-list (so a null byte or disallowed character in
the final segment is rejected); every non-null result is the input's
final segment, is nonempty, and consists only of allow-listed
characters — in particular it contains no path separator and no null
byte.  Traversal or disallowed content confined to the directory part
is stripped by `basename`, not rejected. -/
theorem C1_amended_prop (s : String) :
    (sanitizeFilename s = none ↔ (s = "" ∨ isSafeName (basename s) = false)) ∧
    (∀ o, sanitizeFilename s = some o →
      o = basename s ∧ o ≠ "" ∧
      ∀ c ∈ o.data, isSafeChar c = true ∧ c ≠ '/' ∧ c ≠ Char.ofNat 0) := by
  constructor
  · unfold sanitizeFilename
    by_cases h : s = ""
    · simp [h]
    · by_cases h2 : isSafeName (basename s)
      · simp [h, h2]
      · simp [h, h2]
  · intro o ho
    unfold sanitizeFilename at ho
    by_cases h : s = ""
    · simp [h] at ho
    · simp only [h, if_false] at ho
      by_cases h2 : isSafeName (basename s)
      · simp only [h2, if_true, Option.some.injEq] at ho
        subst ho
        have hsafe := h2
        unfold isSafeName at hsafe
        rw [Bool.and_eq_true] at hsafe
        obtain ⟨hne, hall⟩ := hsafe
        refine ⟨rfl, ?_, ?_⟩
        · intro hcon
          rw [hcon] at hne
          simp at hne
        · intro c hc
          have hcsafe : isSafeChar c = true := by
            rw [List.all_eq_true] at hall
            exact hall c hc
          refine ⟨hcsafe, ?_, ?_⟩
          · intro hcon
            rw [hcon] at hcsafe
            exact absurd hcsafe (by decide)
          · intro hcon
            rw [hcon] at hcsafe
            exact absurd hcsafe (by decide)
      · simp [h2] at ho

/-- Claim C1 (witness): the amended theorem applied at `"x/b.mp3"`. -/
theorem C1_amended_witness :
    ("b.mp3" : String) = basename "x/b.mp3" ∧ ("b.mp3" : String) ≠ "" ∧
    ∀ c ∈ ("b.mp3" : String).data,
      isSafeChar c = true ∧ c ≠ '/' ∧ c ≠ Char.ofNat 0 :=
  (C1_amended_prop "x/b.mp3").2 "b.mp3" (by decide)

/-- Claim C5: for the category-filtered listing, a malformed category
identifier yields 400, and the outcome is 404 exactly when the
identifier is well-formed and zero records match it. -/
theorem C5_prop (categoryId : String) (db : List MusicRec) :
    ((getMusicByCategory categoryId db).status = 404 ↔
      (isValidObjectId categoryId = true ∧
        db.filter (fun m => m.category = categoryId) = [])) ∧
    (isValidObjectId categoryId = false →
      (getMusicByCategory categoryId db).status = 400) := by
  unfold getMusicByCategory
  by_cases h : isValidObjectId categoryId
  · by_cases h2 : db.filter (fun m => m.category = categoryId) = []
    · simp [h, h2, mkMsg]
    · have hlen : (db.filter (fun m => m.category = categoryId)).length ≠ 0 := by
        simpa [List.length_eq_zero] using h2
      simp [h, h2, hlen, mkMsg]
  · simp [Bool.not_eq_true] at h
    simp [h, mkMsg]

/-- Claim C5 (witness): the theorem applied to a malformed id over the
empty collection, and to a well-formed id matching zero records. -/
theorem C5_witness :
    (getMusicByCategory "zz" []).status = 400 ∧
    (getMusicByCategory "0123456789abcdef01234567" []).status = 404 := by
  constructor
  · exact (C5_prop "zz" []).2 (by decide)
  · exact (C5_prop "0123456789abcdef01234567" []).1.mpr ⟨by decide, rfl⟩

set_option maxHeartbeats 1600000 in
/-- Claim C3: the missing list enumerates exactly the absent required
fields, in source order (every one of them, not just the first), and a
create request with at least one missing field is answered 400 with
that list and leaves the state untouched. -/
theorem C3_prop (newId : String) (r : CreateReq) (st : St) :
    missingFields r = requiredFieldNames.filter (fieldAbsent r) ∧
    (missingFields r ≠ [] →
      (createMusic newId r st).1.status = 400 ∧
      (createMusic newId r st).1.message = some "Missing required fields" ∧
      (createMusic newId r st).1.missing = some (missingFields r) ∧
      (createMusic newId r st).2 = st) := by
  constructor
  · have e1 : fieldAbsent r "title" = !(strTruthy r.title) := rfl
    have e2 : fieldAbsent r "artist" = !(strTruthy r.artist) := rfl
    have e3 : fieldAbsent r "category" = !(strTruthy r.category) := rfl
    have e4 : fieldAbsent r "categoryType" = !(strTruthy r.categoryType) := rfl
    have e5 : fieldAbsent r "file" = !(r.audioFile.isSome) := rfl
    have e6 : fieldAbsent r "duration" = !(intTruthy r.duration) := rfl
    have e7 : fieldAbsent r "releaseDate" = !(strTruthy r.releaseDate) := rfl
    unfold missingFields requiredFieldNames
    rw [List.filter_cons, List.filter_cons, List.filter_cons, List.filter_cons,
      List.filter_cons, List.filter_cons, List.filter_cons, List.filter_nil,
      e1, e2, e3, e4, e5, e6, e7]
    cases h1 : strTruthy r.title <;> cases h2 : strTruthy r.artist <;>
      cases h3 : strTruthy r.category <;> cases h4 : strTruthy r.categoryType <;>
      cases h5 : r.audioFile.isSome <;> cases h6 : intTruthy r.duration <;>
      cases h7 : strTruthy r.releaseDate <;> rfl
  · intro hne
    have hbool : (missingFields r).isEmpty = false := by
      cases hmf : missingFields r with
      | nil => exact absurd hmf hne
      | cons a l => rfl
    unfold createMusic
    simp [hbool]

/-- Claim C3 (witness): the theorem applied to a request missing
exactly `title` and `duration`: the response is 400 and its missing
list is exactly `["title", "duration"]`. -/
theorem C3_witness :
    missingFields reqCreateMissing = ["title", "duration"] ∧
    (createMusic oid2 reqCreateMissing emptySt).1.status = 400 ∧
    (createMusic oid2 reqCreateMissing emptySt).1.missing =
      some ["title", "duration"] := by
  have h := C3_prop oid2 reqCreateMissing emptySt
  have hmf : missingFields reqCreateMissing = ["title", "duration"] := by decide
  have h2 := h.2 (by decide)
  exact ⟨hmf, h2.1, by rw [h2.2.2.1, hmf]⟩

/-- Claim C2 (counterexample): a record whose stored `fileUrl` has
basename `".."` exists under a well-formed id, yet deleting it answers
500 and keeps the record: the sanitizer accepts `".."`, the joined path
is the uploads directory's parent (an existing directory), and the
unlink throws with no try/catch in `deleteMusic`. -/
theorem C2_counterexample :
    isValidObjectId oid1 = true ∧
    stDotDot.db.find? (fun m => m.id = oid1) = some recDotDot ∧
    sanitizeFilename (basename "/uploads/..") = some ".." ∧
    (deleteMusic oid1 stDotDot).1.status = 500 ∧
    (deleteMusic oid1 stDotDot).2.1.db = [recDotDot] := by
  refine ⟨by decide, by decide, by decide, by decide, by decide⟩

/-- Claim C2 (amended): deleting an existing record (well-formed id,
record found) whose referenced basenames do not sanitize to the dot
segments `"."` or `".."` answers 200 "Music deleted successfully" and
shrinks the collection by one, whatever the contents of the uploads
directory; a referenced ordinary file that is absent is never unlinked
(treated as a non-error), and the success response does not depend on
it. -/
theorem C2_prop (id : String) (st : St) (music : MusicRec)
    (hvalid : isValidObjectId id = true)
    (hfind : st.db.find? (fun m => m.id = id) = some music)
    (hf1 : cleanupThrows music.fileUrl = false)
    (hf2 : cleanupThrows music.thumbnailUrl = false) :
    (deleteMusic id st).1.status = 200 ∧
    (deleteMusic id st).1.message = some "Music deleted successfully" ∧
    (deleteMusic id st).2.1.db.length + 1 = st.db.length ∧
    ∀ n, n ∉ st.fs → FsOp.unlink n ∉ (deleteMusic id st).2.2 := by
  have h1 : ¬((cleanupFile music.fileUrl st.fs).threw = true) := by
    rw [cleanupFile_threw, hf1]
    exact Bool.false_ne_true
  have h2 : ¬((cleanupFile music.thumbnailUrl
      (cleanupFile music.fileUrl st.fs).fs).threw = true) := by
    rw [cleanupFile_threw, hf2]
    exact Bool.false_ne_true
  unfold deleteMusic
  rw [hvalid, hfind]
  dsimp only
  rw [if_neg h1, if_neg h2]
  refine ⟨rfl, rfl, ?_, ?_⟩
  · have hmem := List.mem_of_find?_eq_some hfind
    have hp := List.find?_some hfind
    exact List.length_eraseP_add_one hmem hp
  · intro n hn hunlink
    replace hunlink : FsOp.unlink n ∈
        (cleanupFile music.fileUrl st.fs).ops ++
          (cleanupFile music.thumbnailUrl (cleanupFile music.fileUrl st.fs).fs).ops :=
      hunlink
    rw [List.mem_append] at hunlink
    rcases hunlink with h3 | h3
    · exact hn (cleanupFile_unlink_mem _ _ _ h3)
    · exact hn (cleanupFile_fs_subset _ _ _ (cleanupFile_unlink_mem _ _ _ h3))

/-- Claim C2 (witness): deleting the record whose ordinary referenced
files are absent from the uploads directory still succeeds with 200,
removes the record, and performs no unlink of the missing file. -/
theorem C2_witness :
    (deleteMusic oid1 stDangling).1.status = 200 ∧
    (deleteMusic oid1 stDangling).1.message = some "Music deleted successfully" ∧
    (deleteMusic oid1 stDangling).2.1.db.length + 1 = stDangling.db.length ∧
    FsOp.unlink "gone.mp3" ∉ (deleteMusic oid1 stDangling).2.2 := by
  have h := C2_prop oid1 stDangling recDangling (by decide) (by decide)
    (by decide) (by decide)
  exact ⟨h.1, h.2.1, h.2.2.1, h.2.2.2 "gone.mp3" (by decide)⟩

/-- Claim C4: with every required field present (create) or on the
happy path to the description guard (update, well-formed ids and a
found record), the operation answers 400 "Description must be 1000
characters or fewer" exactly when the sanitized description exceeds
1000 characters. -/
theorem C4_prop :
    (∀ newId r st, missingFields r = [] →
      (((createMusic newId r st).1.status = 400 ∧
        (createMusic newId r st).1.message =
          some "Description must be 1000 characters or fewer") ↔
        (sanitizeText (r.description.getD "")).length > 1000)) ∧
    (∀ req st d, req.body.description = some d →
      (strTruthy req.body.category &&
        !(isValidObjectId (req.body.category.getD ""))) = false →
      (strTruthy req.body.categoryType &&
        !(isValidObjectId (req.body.categoryType.getD ""))) = false →
      isValidObjectId req.id = true →
      (∃ music, st.db.find? (fun m => m.id = req.id) = some music) →
      (((updateMusic req st).1.status = 400 ∧
        (updateMusic req st).1.message =
          some "Description must be 1000 characters or fewer") ↔
        (sanitizeText d).length > 1000)) := by
  constructor
  · intro newId r st hmf
    by_cases hlen : (sanitizeText (r.description.getD "")).length > 1000
    · simp [createMusic, hmf, hlen, mkMsg]
    · by_cases hv : isValidObjectId (r.category.getD "") &&
          isValidObjectId (r.categoryType.getD "")
      · simp [createMusic, hmf, hlen, hv, mkMsg]
      · simp [createMusic, hmf, hlen, hv, mkMsg]
  · intro req st d hd hcat hcatT hvalid hex
    obtain ⟨music, hfind⟩ := hex
    have hv2 : ¬((!(isValidObjectId req.id)) = true) := by
      rw [hvalid]
      decide
    have hc2 : ¬((strTruthy req.body.category &&
        !(isValidObjectId (req.body.category.getD ""))) = true) := by
      rw [hcat]
      decide
    have hct2 : ¬((strTruthy req.body.categoryType &&
        !(isValidObjectId (req.body.categoryType.getD ""))) = true) := by
      rw [hcatT]
      decide
    unfold updateMusic
    rw [if_neg hv2, hfind]
    dsimp only
    rw [if_neg hc2, if_neg hct2]
    by_cases hlen : (sanitizeText d).length > 1000
    · simp [applyDescription, hd, hlen, mkMsg]
    · dsimp only
      have hdesc : applyDescription req.body
          (applyScalarFields req.body (applyBodyUrls req.body music)) =
          some { applyScalarFields req.body (applyBodyUrls req.body music) with
                 description := sanitizeText d } := by
        simp [applyDescription, hd, hlen]
      rw [hdesc]
      dsimp only
      constructor
      · rintro ⟨h1, h2⟩
        exfalso
        split at h1
        · simp [mkMsg] at h1
        · split at h1
          · simp [mkMsg] at h1
          · simp at h1
      · intro hgt
        exact absurd hgt hlen

set_option maxRecDepth 100000 in
/-- Claim C4 (witness): the theorem applied to a create request and an
update request carrying a plain description of exactly 1001 characters
(rejected with the 400 message) and of exactly 1000 characters
(accepted: 201 on create, 200 on update). -/
theorem C4_witness :
    ((createMusic oid2 (reqCreateDesc 1001) emptySt).1.status = 400 ∧
      (createMusic oid2 (reqCreateDesc 1001) emptySt).1.message =
        some "Description must be 1000 characters or fewer") ∧
    (createMusic oid2 (reqCreateDesc 1000) emptySt).1.status = 201 ∧
    ((updateMusic (reqUpdateDesc 1001) stScalars).1.status = 400 ∧
      (updateMusic (reqUpdateDesc 1001) stScalars).1.message =
        some "Description must be 1000 characters or fewer") ∧
    (updateMusic (reqUpdateDesc 1000) stScalars).1.status = 200 := by
  refine ⟨?_, by decide, ?_, by decide⟩
  · exact (C4_prop.1 oid2 (reqCreateDesc 1001) emptySt (by decide)).mpr (by decide)
  · exact (C4_prop.2 (reqUpdateDesc 1001) stScalars (descChars 1001) rfl
      (by decide) (by decide) (by decide) ⟨recScalars, by decide⟩).mpr (by decide)

/-- Reduction of `updateMusic` on the success path (no throwing
cleanup in either file block). -/
theorem updateMusic_success_eq (req : UpdateReq) (st : St) (music m4 : MusicRec)
    (hvalid : isValidObjectId req.id = true)
    (hfind : st.db.find? (fun m => m.id = req.id) = some music)
    (hcat : (strTruthy req.body.category &&
      !(isValidObjectId (req.body.category.getD ""))) = false)
    (hcatT : (strTruthy req.body.categoryType &&
      !(isValidObjectId (req.body.categoryType.getD ""))) = false)
    (hdesc : applyDescription req.body
      (applyScalarFields req.body (applyBodyUrls req.body music)) = some m4)
    (hant : (processAudio req m4 st.fs).2.threw = false)
    (htnt : (processThumb req (processAudio req m4 st.fs).1
      (processAudio req m4 st.fs).2.fs).2.threw = false) :
    updateMusic req st =
      ({ status := 200, record := some (processThumb req (processAudio req m4 st.fs).1
          (processAudio req m4 st.fs).2.fs).1 },
       { db := saveRec st.db (processThumb req (processAudio req m4 st.fs).1
           (processAudio req m4 st.fs).2.fs).1,
         fs := (processThumb req (processAudio req m4 st.fs).1
           (processAudio req m4 st.fs).2.fs).2.fs },
       (processAudio req m4 st.fs).2.ops ++
         (processThumb req (processAudio req m4 st.fs).1
           (processAudio req m4 st.fs).2.fs).2.ops) := by
  have ha : ¬((processAudio req m4 st.fs).2.threw = true) := by
    rw [hant]
    exact Bool.false_ne_true
  have ht : ¬((processThumb req (processAudio req m4 st.fs).1
      (processAudio req m4 st.fs).2.fs).2.threw = true) := by
    rw [htnt]
    exact Bool.false_ne_true
  have hv2 : ¬((!(isValidObjectId req.id)) = true) := by
    rw [hvalid]
    decide
  have hc2 : ¬((strTruthy req.body.category &&
      !(isValidObjectId (req.body.category.getD ""))) = true) := by
    rw [hcat]
    decide
  have hct2 : ¬((strTruthy req.body.categoryType &&
      !(isValidObjectId (req.body.categoryType.getD ""))) = true) := by
    rw [hcatT]
    decide
  unfold updateMusic
  rw [if_neg hv2, hfind]
  dsimp only
  rw [if_neg hc2, if_neg hct2, hdesc]
  dsimp only
  rw [if_neg ha, if_neg ht]

/-- `applyBodyUrls` only ever touches the URL fields. -/
theorem applyBodyUrls_fileUrl (b : UpdateBody) (m : MusicRec) :
    (applyBodyUrls b m).fileUrl =
      (if strTruthy b.fileUrl then b.fileUrl else m.fileUrl) := by
  unfold applyBodyUrls
  by_cases h1 : strTruthy b.fileUrl <;> by_cases h2 : strTruthy b.thumbnailUrl <;>
    simp [h1, h2]

/-- `applyBodyUrls` leaves every scalar field unchanged. -/
theorem applyBodyUrls_scalars (b : UpdateBody) (m : MusicRec) :
    (applyBodyUrls b m).title = m.title ∧
    (applyBodyUrls b m).artist = m.artist ∧
    (applyBodyUrls b m).duration = m.duration ∧
    (applyBodyUrls b m).releaseDate = m.releaseDate := by
  unfold applyBodyUrls
  by_cases h1 : strTruthy b.fileUrl <;> by_cases h2 : strTruthy b.thumbnailUrl <;>
    simp [h1, h2]

/-- A `none` description passes the guard with the record unchanged. -/
theorem applyDescription_none (b : UpdateBody) (m : MusicRec)
    (h : b.description = none) : applyDescription b m = some m := by
  simp [applyDescription, h]

/-- No uploaded audio file: no cleanup, no URL change, no throw. -/
theorem processAudio_noFile (req : UpdateReq) (m : MusicRec) (fs : List String)
    (h : req.audioFile = none) : processAudio req m fs = (m, ⟨fs, [], false⟩) := by
  simp [processAudio, h]

/-- No uploaded thumbnail: no cleanup, no URL change, no throw. -/
theorem processThumb_noFile (req : UpdateReq) (m : MusicRec) (fs : List String)
    (h : req.thumbnailFile = none) : processThumb req m fs = (m, ⟨fs, [], false⟩) := by
  simp [processThumb, h]

/-- With an uploaded audio file, the block's filesystem outcome is the
cleanup of the record's current `fileUrl`, throw or not. -/
theorem processAudio_outcome (req : UpdateReq) (m : MusicRec) (fs : List String)
    (fl : UploadedFile) (h : req.audioFile = some fl) :
    (processAudio req m fs).2 = cleanupFile m.fileUrl fs := by
  unfold processAudio
  rw [h]
  dsimp only
  split
  · rfl
  · rfl

/-- URL fields survive the description guard. -/
theorem applyDescription_urls (b : UpdateBody) (m m' : MusicRec)
    (h : applyDescription b m = some m') :
    m'.fileUrl = m.fileUrl ∧ m'.thumbnailUrl = m.thumbnailUrl := by
  unfold applyDescription at h
  cases hd : b.description with
  | none =>
    rw [hd] at h
    dsimp only at h
    cases h
    exact ⟨rfl, rfl⟩
  | some d =>
    rw [hd] at h
    dsimp only at h
    by_cases hlen : (sanitizeText d).length > 1000
    · rw [if_pos hlen] at h
      cases h
    · rw [if_neg hlen] at h
      cases h
      exact ⟨rfl, rfl⟩

/-- `applyBodyUrls` on the thumbnail field. -/
theorem applyBodyUrls_thumbnailUrl (b : UpdateBody) (m : MusicRec) :
    (applyBodyUrls b m).thumbnailUrl =
      (if strTruthy b.thumbnailUrl then b.thumbnailUrl else m.thumbnailUrl) := by
  unfold applyBodyUrls
  by_cases h1 : strTruthy b.fileUrl <;> by_cases h2 : strTruthy b.thumbnailUrl <;>
    simp [h1, h2]

/-- Claim C6: an update that uploads no file performs no filesystem
operation at all and leaves the uploads directory untouched, whatever
else the request contains; and on the path that reaches `save()` a
truthy raw body `fileUrl` and a truthy raw body `thumbnailUrl` are
each stored verbatim in the record. -/
theorem C6_prop (req : UpdateReq) (st : St)
    (hA : req.audioFile = none) (hT : req.thumbnailFile = none) :
    (updateMusic req st).2.2 = [] ∧
    (updateMusic req st).2.1.fs = st.fs ∧
    (∀ music m4, isValidObjectId req.id = true →
      st.db.find? (fun m => m.id = req.id) = some music →
      (strTruthy req.body.category &&
        !(isValidObjectId (req.body.category.getD ""))) = false →
      (strTruthy req.body.categoryType &&
        !(isValidObjectId (req.body.categoryType.getD ""))) = false →
      applyDescription req.body
        (applyScalarFields req.body (applyBodyUrls req.body music)) = some m4 →
      (updateMusic req st).1.status = 200 ∧
      (∀ u, req.body.fileUrl = some u → u ≠ "" →
        (updateMusic req st).1.record.map MusicRec.fileUrl = some (some u)) ∧
      (∀ v, req.body.thumbnailUrl = some v → v ≠ "" →
        (updateMusic req st).1.record.map MusicRec.thumbnailUrl =
          some (some v))) := by
  have hfs : (updateMusic req st).2.2 = [] ∧ (updateMusic req st).2.1.fs = st.fs := by
    unfold updateMusic
    split
    · exact ⟨rfl, rfl⟩
    · split
      · exact ⟨rfl, rfl⟩
      · split
        · exact ⟨rfl, rfl⟩
        · split
          · exact ⟨rfl, rfl⟩
          · dsimp only
            split
            · exact ⟨rfl, rfl⟩
            · rw [processAudio_noFile _ _ _ hA, processThumb_noFile _ _ _ hT]
              exact ⟨rfl, rfl⟩
  refine ⟨hfs.1, hfs.2, ?_⟩
  intro music m4 hvalid hfind hcat hcatT hdesc
  have hant : (processAudio req m4 st.fs).2.threw = false := by
    rw [processAudio_noFile _ _ _ hA]
  have htnt : (processThumb req (processAudio req m4 st.fs).1
      (processAudio req m4 st.fs).2.fs).2.threw = false := by
    rw [processThumb_noFile _ _ _ hT]
  rw [updateMusic_success_eq req st music m4 hvalid hfind hcat hcatT hdesc
      hant htnt,
    processAudio_noFile _ _ _ hA, processThumb_noFile _ _ _ hT]
  have hurls := applyDescription_urls _ _ _ hdesc
  refine ⟨rfl, ?_, ?_⟩
  · intro u hfu hu
    have h2 := applyBodyUrls_fileUrl req.body music
    have htru : strTruthy req.body.fileUrl = true := by
      rw [hfu]
      unfold strTruthy
      simp [hu]
    rw [htru, if_pos rfl] at h2
    show some m4.fileUrl = some (some u)
    rw [hurls.1]
    show some (applyBodyUrls req.body music).fileUrl = some (some u)
    rw [h2, hfu]
  · intro v htv hv
    have h2 := applyBodyUrls_thumbnailUrl req.body music
    have htru : strTruthy req.body.thumbnailUrl = true := by
      rw [htv]
      unfold strTruthy
      simp [hv]
    rw [htru, if_pos rfl] at h2
    show some m4.thumbnailUrl = some (some v)
    rw [hurls.2]
    show some (applyBodyUrls req.body music).thumbnailUrl = some (some v)
    rw [h2, htv]

/-- Claim C6 (witness): the theorem applied to a metadata-only URL
update: no filesystem operations, uploads directory unchanged, 200, and
both raw body URLs stored verbatim. -/
theorem C6_witness :
    (updateMusic reqUrlOnly stUrlOnly).2.2 = [] ∧
    (updateMusic reqUrlOnly stUrlOnly).2.1.fs = stUrlOnly.fs ∧
    (updateMusic reqUrlOnly stUrlOnly).1.status = 200 ∧
    (updateMusic reqUrlOnly stUrlOnly).1.record.map MusicRec.fileUrl =
      some (some "http://cdn.example.com/x.mp3") ∧
    (updateMusic reqUrlOnly stUrlOnly).1.record.map MusicRec.thumbnailUrl =
      some (some "http://cdn.example.com/t.jpg") := by
  have h := C6_prop reqUrlOnly stUrlOnly rfl rfl
  have h3 := h.2.2 recOld _ (by decide) (by decide) (by decide) (by decide)
    (applyDescription_none _ _ rfl)
  exact ⟨h.1, h.2.1, h3.1,
    h3.2.1 "http://cdn.example.com/x.mp3" rfl (by decide),
    h3.2.2 "http://cdn.example.com/t.jpg" rfl (by decide)⟩

/-- `processAudio` leaves every scalar field unchanged. -/
theorem processAudio_scalars (req : UpdateReq) (m : MusicRec) (fs : List String) :
    (processAudio req m fs).1.title = m.title ∧
    (processAudio req m fs).1.artist = m.artist ∧
    (processAudio req m fs).1.duration = m.duration ∧
    (processAudio req m fs).1.releaseDate = m.releaseDate := by
  unfold processAudio
  cases h : req.audioFile with
  | none => exact ⟨rfl, rfl, rfl, rfl⟩
  | some f =>
    dsimp only
    split
    · exact ⟨rfl, rfl, rfl, rfl⟩
    · exact ⟨rfl, rfl, rfl, rfl⟩

/-- `processThumb` leaves every scalar field unchanged. -/
theorem processThumb_scalars (req : UpdateReq) (m : MusicRec) (fs : List String) :
    (processThumb req m fs).1.title = m.title ∧
    (processThumb req m fs).1.artist = m.artist ∧
    (processThumb req m fs).1.duration = m.duration ∧
    (processThumb req m fs).1.releaseDate = m.releaseDate := by
  unfold processThumb
  cases h : req.thumbnailFile with
  | none => exact ⟨rfl, rfl, rfl, rfl⟩
  | some f =>
    dsimp only
    split
    · exact ⟨rfl, rfl, rfl, rfl⟩
    · exact ⟨rfl, rfl, rfl, rfl⟩

/-- The description guard leaves every scalar field unchanged. -/
theorem applyDescription_scalars (b : UpdateBody) (m m' : MusicRec)
    (h : applyDescription b m = some m') :
    m'.title = m.title ∧ m'.artist = m.artist ∧
    m'.duration = m.duration ∧ m'.releaseDate = m.releaseDate := by
  unfold applyDescription at h
  cases hd : b.description with
  | none =>
    rw [hd] at h
    dsimp only at h
    cases h
    exact ⟨rfl, rfl, rfl, rfl⟩
  | some d =>
    rw [hd] at h
    dsimp only at h
    by_cases hlen : (sanitizeText d).length > 1000
    · rw [if_pos hlen] at h
      cases h
    · rw [if_neg hlen] at h
      cases h
      exact ⟨rfl, rfl, rfl, rfl⟩

/-- The scalar merges of `applyScalarFields`, field by field. -/
theorem applyScalarFields_fields (b : UpdateBody) (m : MusicRec) :
    (applyScalarFields b m).title = orKeepS b.title m.title ∧
    (applyScalarFields b m).artist = orKeepS b.artist m.artist ∧
    (applyScalarFields b m).duration = orKeepI b.duration m.duration ∧
    (applyScalarFields b m).releaseDate = orKeepS b.releaseDate m.releaseDate :=
  ⟨rfl, rfl, rfl, rfl⟩

/-- A falsy body value keeps the stored string. -/
theorem orKeepS_falsy (new : Option String) (old : String)
    (h : strTruthy new = false) : orKeepS new old = old := by
  simp [orKeepS, h]

/-- A falsy body value keeps the stored number. -/
theorem orKeepI_falsy (new : Option Int) (old : Int)
    (h : intTruthy new = false) : orKeepI new old = old := by
  simp [orKeepI, h]

/-- Claim C10: on the success path of an update, a falsy body value for
title, artist, duration or releaseDate leaves the stored field
unchanged — these fields cannot be cleared or set falsy via update. -/
theorem C10_prop (req : UpdateReq) (st : St) (music m4 : MusicRec)
    (hvalid : isValidObjectId req.id = true)
    (hfind : st.db.find? (fun m => m.id = req.id) = some music)
    (hcat : (strTruthy req.body.category &&
      !(isValidObjectId (req.body.category.getD ""))) = false)
    (hcatT : (strTruthy req.body.categoryType &&
      !(isValidObjectId (req.body.categoryType.getD ""))) = false)
    (hdesc : applyDescription req.body
      (applyScalarFields req.body (applyBodyUrls req.body music)) = some m4)
    (hant : (processAudio req m4 st.fs).2.threw = false)
    (htnt : (processThumb req (processAudio req m4 st.fs).1
      (processAudio req m4 st.fs).2.fs).2.threw = false) :
    (strTruthy req.body.title = false →
      (updateMusic req st).1.record.map MusicRec.title = some music.title) ∧
    (strTruthy req.body.artist = false →
      (updateMusic req st).1.record.map MusicRec.artist = some music.artist) ∧
    (intTruthy req.body.duration = false →
      (updateMusic req st).1.record.map MusicRec.duration = some music.duration) ∧
    (strTruthy req.body.releaseDate = false →
      (updateMusic req st).1.record.map MusicRec.releaseDate =
        some music.releaseDate) := by
  rw [updateMusic_success_eq req st music m4 hvalid hfind hcat hcatT hdesc
    hant htnt]
  have ht := processThumb_scalars req (processAudio req m4 st.fs).1
    (processAudio req m4 st.fs).2.fs
  have ha := processAudio_scalars req m4 st.fs
  have hd := applyDescription_scalars _ _ _ hdesc
  have hb := applyBodyUrls_scalars req.body music
  have hs := applyScalarFields_fields req.body (applyBodyUrls req.body music)
  refine ⟨?_, ?_, ?_, ?_⟩
  · intro hf
    show some _ = some music.title
    rw [ht.1, ha.1, hd.1, hs.1, hb.1, orKeepS_falsy _ _ hf]
  · intro hf
    show some _ = some music.artist
    rw [ht.2.1, ha.2.1, hd.2.1, hs.2.1, hb.2.1, orKeepS_falsy _ _ hf]
  · intro hf
    show some _ = some music.duration
    rw [ht.2.2.1, ha.2.2.1, hd.2.2.1, hs.2.2.1, hb.2.2.1, orKeepI_falsy _ _ hf]
  · intro hf
    show some _ = some music.releaseDate
    rw [ht.2.2.2, ha.2.2.2, hd.2.2.2, hs.2.2.2, hb.2.2.2, orKeepS_falsy _ _ hf]

/-- Claim C10 (witness): the theorem applied to an update supplying
`""` for title, artist and releaseDate and `0` for duration: all four
stored values survive. -/
theorem C10_witness :
    (updateMusic reqFalsy stScalars).1.record.map MusicRec.title =
      some "OldTitle" ∧
    (updateMusic reqFalsy stScalars).1.record.map MusicRec.artist =
      some "OldArtist" ∧
    (updateMusic reqFalsy stScalars).1.record.map MusicRec.duration =
      some 100 ∧
    (updateMusic reqFalsy stScalars).1.record.map MusicRec.releaseDate =
      some "2020-01-01" := by
  have h := C10_prop reqFalsy stScalars recScalars _ (by decide) (by decide)
    (by decide) (by decide) (applyDescription_none _ _ rfl) (by decide)
    (by decide)
  exact ⟨h.1 (by decide), h.2.1 (by decide), h.2.2.1 (by decide),
    h.2.2.2 (by decide)⟩

/-- Uploaded audio file whose cleanup does not throw: cleanup of the
record's current `fileUrl`, then the URL points at the new upload. -/
theorem processAudio_file (req : UpdateReq) (m : MusicRec) (fs : List String)
    (fl : UploadedFile) (h : req.audioFile = some fl)
    (hnt : (cleanupFile m.fileUrl fs).threw = false) :
    processAudio req m fs =
      ({ m with fileUrl := some ("/uploads/" ++ fl.filename) },
       cleanupFile m.fileUrl fs) := by
  simp [processAudio, h, hnt]

/-- A file whose name is not the sanitizer output for the cleaned URL
survives the cleanup. -/
theorem cleanupFile_keep (u : String) (fs : List String) (x : String)
    (hx : x ∈ fs) (hne : sanitizeFilename (basename u) ≠ some x) :
    x ∈ (cleanupFile (some u) fs).fs := by
  unfold cleanupFile
  dsimp only
  cases h : sanitizeFilename (basename u) with
  | none => exact hx
  | some name =>
    have hxname : x ≠ name := by
      intro he
      exact hne (by rw [h, he])
    by_cases hdot : isDotSegment name = true
    · simp only [hdot, if_true]
      exact hx
    · simp only [hdot, if_false, Bool.false_eq_true]
      by_cases hm : name ∈ fs
      · simp only [hm, if_true]
        exact (List.mem_erase_of_ne hxname).mpr hx
      · simp only [hm, if_false]
        exact hx

/-- Claim C9 (counterexample): an update supplying both a raw body
`fileUrl` with basename `".."` and an uploaded audio file: the body
URL is assigned first and its basename sanitizes to `".."`, so the
cleanup's unlink throws, the catch answers 500, and nothing is saved —
the stored `fileUrl` is NOT that of the newly uploaded file. -/
theorem C9_counterexample :
    (updateMusic reqDotUpload stDotUpload).1.status = 500 ∧
    (updateMusic reqDotUpload stDotUpload).1.record = none ∧
    (updateMusic reqDotUpload stDotUpload).2.1.db = [recOld] ∧
    recOld.fileUrl = some "/uploads/old.mp3" := by
  refine ⟨by decide, by decide, by decide, by decide⟩

/-- Claim C9 (amended): when an update supplies both a truthy raw body
`fileUrl` whose basename does not sanitize to a dot segment and an
uploaded audio file (no thumbnail, no description, success path), the
body URL is assigned first, so the cleanup operates on the body URL's
basename: the operation log and resulting directory are exactly those
of cleaning the body URL, any file not named by that sanitized
basename (in particular the previously referenced one) survives, and
the final stored `fileUrl` is that of the new upload.  When the body
URL's basename sanitizes to `"."` or `".."`, the unlink throws and the
handler answers 500 with nothing saved. -/
theorem C9_prop (req : UpdateReq) (st : St) (music : MusicRec)
    (fl : UploadedFile) (bu : String)
    (hvalid : isValidObjectId req.id = true)
    (hfind : st.db.find? (fun m => m.id = req.id) = some music)
    (hcat : (strTruthy req.body.category &&
      !(isValidObjectId (req.body.category.getD ""))) = false)
    (hcatT : (strTruthy req.body.categoryType &&
      !(isValidObjectId (req.body.categoryType.getD ""))) = false)
    (hdescN : req.body.description = none)
    (hbu : req.body.fileUrl = some bu) (hbune : bu ≠ "")
    (hno : cleanupThrows (some bu) = false)
    (hA : req.audioFile = some fl) (hT : req.thumbnailFile = none) :
    (updateMusic req st).1.record.map MusicRec.fileUrl =
      some (some ("/uploads/" ++ fl.filename)) ∧
    (updateMusic req st).2.2 = (cleanupFile (some bu) st.fs).ops ∧
    (updateMusic req st).2.1.fs = (cleanupFile (some bu) st.fs).fs ∧
    (∀ x, x ∈ st.fs → sanitizeFilename (basename bu) ≠ some x →
      x ∈ (updateMusic req st).2.1.fs) := by
  have hm3fu : (applyScalarFields req.body (applyBodyUrls req.body music)).fileUrl =
      some bu := by
    show (applyBodyUrls req.body music).fileUrl = some bu
    rw [applyBodyUrls_fileUrl]
    have htru : strTruthy req.body.fileUrl = true := by
      rw [hbu]
      simp [strTruthy, hbune]
    rw [htru, if_pos rfl, hbu]
  have hnt : (cleanupFile (applyScalarFields req.body
      (applyBodyUrls req.body music)).fileUrl st.fs).threw = false := by
    rw [hm3fu, cleanupFile_threw, hno]
  have hant : (processAudio req
      (applyScalarFields req.body (applyBodyUrls req.body music)) st.fs).2.threw =
      false := by
    rw [processAudio_outcome req _ st.fs fl hA, hnt]
  have htnt : (processThumb req
      (processAudio req
        (applyScalarFields req.body (applyBodyUrls req.body music)) st.fs).1
      (processAudio req
        (applyScalarFields req.body (applyBodyUrls req.body music)) st.fs).2.fs).2.threw =
      false := by
    rw [processThumb_noFile _ _ _ hT]
  rw [updateMusic_success_eq req st music _ hvalid hfind hcat hcatT
      (applyDescription_none _ _ hdescN) hant htnt,
    processAudio_file req _ st.fs fl hA hnt, processThumb_noFile _ _ _ hT]
  refine ⟨rfl, ?_, ?_, ?_⟩
  · show (cleanupFile _ st.fs).ops ++ [] = _
    rw [hm3fu, List.append_nil]
  · show (cleanupFile _ st.fs).fs = _
    rw [hm3fu]
  · intro x hx hne
    show x ∈ (cleanupFile _ st.fs).fs
    rw [hm3fu]
    exact cleanupFile_keep bu st.fs x hx hne

/-- Claim C9 (witness): the amended theorem applied to the concrete
body-URL-plus-upload scenario: the body-named file `body1.mp3` is the
one existence-checked and unlinked, the previously referenced
`old.mp3` survives, and the stored URL is the new upload's. -/
theorem C9_witness :
    (updateMusic reqBodyAndUpload stBodyAndUpload).1.record.map MusicRec.fileUrl =
      some (some "/uploads/new.mp3") ∧
    (updateMusic reqBodyAndUpload stBodyAndUpload).2.2 =
      [FsOp.existsCheck "body1.mp3" true, FsOp.unlink "body1.mp3"] ∧
    "old.mp3" ∈ (updateMusic reqBodyAndUpload stBodyAndUpload).2.1.fs := by
  have h := C9_prop reqBodyAndUpload stBodyAndUpload recOld
    { filename := "new.mp3" } "/uploads/body1.mp3" (by decide) (by decide)
    (by decide) (by decide) rfl rfl (by decide) (by decide) rfl rfl
  refine ⟨h.1, ?_, h.2.2.2 "old.mp3" (by decide) (by decide)⟩
  rw [h.2.1]
  decide

/-- Claim C7: with `OLD_BASE_URL=http://old.example.com` and
`NEW_BASE_URL=http://new.example.com`, migrating a collection holding a
record with `fileUrl = "http://old.example.com/uploads/a.mp3"` rewrites
it to `"http://new.example.com/uploads/a.mp3"` (reporting one update),
and running the migration again on the result reports zero additional
updates. -/
theorem C7_prop :
    (updateDatabaseUrls envMig [recMig]).2.map MusicRec.fileUrl =
      [some "http://new.example.com/uploads/a.mp3"] ∧
    (updateDatabaseUrls envMig [recMig]).1.updatedCount = some 1 ∧
    (updateDatabaseUrls envMig
        ((updateDatabaseUrls envMig [recMig]).2)).1.updatedCount = some 0 := by
  refine ⟨by decide, by decide, by decide⟩

/-- Claim C8 (counterexample): a record whose `fileUrl` contains the
old hostname under the `https` scheme is scanned and counted as
updated (`updatedCount = 1`), yet the `http://`-base substitution
leaves the collection completely unchanged — the reported updated
count exceeds the number of records actually modified. -/
theorem C8_counterexample :
    (updateDatabaseUrls envMig [recHttps]).1.totalFound = some 1 ∧
    (updateDatabaseUrls envMig [recHttps]).1.updatedCount = some 1 ∧
    (updateDatabaseUrls envMig [recHttps]).2 = [recHttps] := by
  refine ⟨by decide, by decide, by decide⟩

/-- The migration loop's `needsUpdate` flag coincides with the scan
criterion. -/
theorem migrateRecord_needsUpdate (ob nb host : String) (m : MusicRec) :
    (migrateRecord ob nb host m).2 = matchesOldHost host m := by
  unfold migrateRecord matchesOldHost
  cases hf : m.fileUrl <;> cases ht : m.thumbnailUrl <;> dsimp only <;>
    repeat' split <;> simp_all

/-- The migration loop never changes a record's identity. -/
theorem migrateRecord_id (ob nb host : String) (m : MusicRec) :
    (migrateRecord ob nb host m).1.id = m.id := by
  unfold migrateRecord
  cases hf : m.fileUrl <;> cases ht : m.thumbnailUrl <;> dsimp only

/-- A record whose id differs from every persisted record's id survives
the persistence fold unchanged. -/
theorem foldl_saveRec_mem (results : List (MusicRec × Bool)) (db : List MusicRec)
    (m : MusicRec) (hm : m ∈ db)
    (hid : ∀ p ∈ results, p.1.id ≠ m.id) :
    m ∈ results.foldl (fun acc p => if p.2 then saveRec acc p.1 else acc) db := by
  induction results generalizing db with
  | nil => exact hm
  | cons p rest ih =>
    show m ∈ rest.foldl _ (if p.2 then saveRec db p.1 else db)
    apply ih
    · by_cases hp : p.2 = true
      · rw [if_pos hp]
        unfold saveRec
        apply List.mem_map.mpr
        refine ⟨m, hm, ?_⟩
        have hne : ¬(m.id = p.1.id) := fun he =>
          (hid p (List.mem_cons_self p rest)) he.symm
        simp [hne]
      · rw [if_neg hp]
        exact hm
    · intro q hq
      exact hid q (List.mem_cons_of_mem p hq)

/-- Claim C8 (amended): `totalFound` is indeed the number of scanned
records (those with a URL field containing the old hostname), but
`updatedCount` always equals `totalFound`: every scanned record
receives a persistence call — even when substituting `OLD_BASE_URL`
leaves its fields textually unchanged — so it counts persistence
calls, not records actually modified.  Records with no field
containing the hostname are not scanned and are left untouched. -/
theorem C8_amended_prop (env : Env) (db : List MusicRec) (host : String)
    (hold : strTruthy env.OLD_BASE_URL = true)
    (hnew : strTruthy (resolvedNewBase env) = true)
    (hhost : parseHostname (env.OLD_BASE_URL.getD "") = some host)
    (hne : db.filter (matchesOldHost host) ≠ []) :
    (updateDatabaseUrls env db).1.status = 200 ∧
    (updateDatabaseUrls env db).1.totalFound =
      some (db.filter (matchesOldHost host)).length ∧
    (updateDatabaseUrls env db).1.updatedCount =
      some (db.filter (matchesOldHost host)).length ∧
    (∀ m, m ∈ db → matchesOldHost host m = false →
      (∀ f, f ∈ db → matchesOldHost host f = true → f.id ≠ m.id) →
      m ∈ (updateDatabaseUrls env db).2) := by
  have hlen : ¬((db.filter (matchesOldHost host)).length = 0) := by
    simpa [List.length_eq_zero] using hne
  unfold updateDatabaseUrls
  simp only [hold, hnew, hhost, Bool.and_self, Bool.not_true, if_neg hlen]
  have hfilter :
      ((db.filter (matchesOldHost host)).map
          (migrateRecord (env.OLD_BASE_URL.getD "")
            ((resolvedNewBase env).getD "") host)).filter (fun p => p.2) =
        (db.filter (matchesOldHost host)).map
          (migrateRecord (env.OLD_BASE_URL.getD "")
            ((resolvedNewBase env).getD "") host) := by
    apply List.filter_eq_self.mpr
    intro p hp
    rw [List.mem_map] at hp
    obtain ⟨f, hf, rfl⟩ := hp
    rw [migrateRecord_needsUpdate]
    exact (List.mem_filter.mp hf).2
  refine ⟨rfl, rfl, ?_, ?_⟩
  · show some (List.length _) = _
    rw [hfilter, List.length_map]
  · intro m hm hmatch hids
    show m ∈ List.foldl _ db _
    apply foldl_saveRec_mem
    · exact hm
    · intro p hp
      rw [List.mem_map] at hp
      obtain ⟨f, hf, rfl⟩ := hp
      rw [migrateRecord_id]
      exact hids f (List.mem_filter.mp hf).1 (List.mem_filter.mp hf).2

/-- Claim C8 (amended, witness): the amended theorem applied to a
collection with one scanned and one untouched record: status 200,
`totalFound = updatedCount = 1`, and the non-matching record survives
unchanged. -/
theorem C8_amended_witness :
    (updateDatabaseUrls envMig [recMig, recNoMatch]).1.status = 200 ∧
    (updateDatabaseUrls envMig [recMig, recNoMatch]).1.totalFound = some 1 ∧
    (updateDatabaseUrls envMig [recMig, recNoMatch]).1.updatedCount = some 1 ∧
    recNoMatch ∈ (updateDatabaseUrls envMig [recMig, recNoMatch]).2 := by
  have h := C8_amended_prop envMig [recMig, recNoMatch] "old.example.com"
    (by decide) (by decide) (by decide) (by decide)
  refine ⟨h.1, ?_, ?_, h.2.2.2 recNoMatch (by decide) (by decide) (by decide)⟩
  · rw [h.2.1]
    decide
  · rw [h.2.2.1]
    decide
